import Mathlib

/-!
# Verification of `pg-logical-replication-python`

A shallow embedding of the repository's three source files:

* `src/pg_logical_replication/models.py` — the wal2json decode model
  (`Wal2JsonChange`, `Wal2JsonOutput.from_dict`);
* `src/pg_logical_replication/client.py` — slot creation (`create_slot`,
  including the LSN text parse), the replication worker loop
  (`_replication_worker`) and the lifecycle methods `start`/`stop`.

Python values flowing through the decoder are modelled by an inductive
`Json` type; Python exceptions are modelled by `Option` (a `none` result
means the corresponding Python code raised).  The embedding follows
CPython semantics for the dictionary operations the source uses, in
particular: `d[k]` fails on a non-dict or a missing key, `d.get(k, e)`
evaluates the default expression `e` eagerly (before the lookup), and
iteration over a non-sequence fails while iteration over a string yields
its one-character substrings and iteration over a dict yields its keys.
-/

set_option autoImplicit false

namespace PgLogRepl

/-- A JSON value as produced by Python's `json.loads`: the dynamic values
the decoder in `models.py` manipulates.  Object fields are kept in
insertion order with distinct keys, as CPython dicts do; numeric leaves
are modelled by `Int` (no claim computes with numbers). -/
inductive Json where
  | null : Json
  | bool (b : Bool) : Json
  | num (n : Int) : Json
  | str (s : String) : Json
  | arr (elems : List Json) : Json
  | obj (fields : List (String × Json)) : Json

/-- Python `d[k]` on a dict: the first binding of `k`, if any. -/
def jsonGet? (fs : List (String × Json)) (k : String) : Option Json :=
  match fs with
  | [] => none
  | (k', v) :: rest => if k' = k then some v else jsonGet? rest k

/-- Python `d.get(k, dflt)` on a dict: lookup with an (already evaluated)
default. -/
def pyDictGet (fs : List (String × Json)) (k : String) (dflt : Json) : Json :=
  match jsonGet? fs k with
  | some v => v
  | none => dflt

/-- Python subscripting `v[k]` with a string key: succeeds only when `v`
is a dict containing `k` (otherwise `TypeError`/`KeyError`). -/
def pySubscript (v : Json) (k : String) : Option Json :=
  match v with
  | Json.obj fs => jsonGet? fs k
  | _ => none

/-- Python `for x in v`: a list iterates its elements, a string iterates
its one-character substrings, a dict iterates its keys; `None`, booleans
and numbers raise `TypeError`. -/
def pyIter (v : Json) : Option (List Json) :=
  match v with
  | Json.arr xs => some xs
  | Json.str s => some (s.data.map (fun c => Json.str (String.mk [c])))
  | Json.obj fs => some (fs.map (fun p => Json.str p.1))
  | _ => none

/-- The evaluation of `change.get("oldkeys", {}).get(sub, [])` from
`models.py`: fails (Python `AttributeError`) exactly when an `oldkeys`
entry is present and is not a dict. -/
def oldkeysGet (fs : List (String × Json)) (sub : String) : Option Json :=
  match pyDictGet fs ("oldkeys") (Json.obj []) with
  | Json.obj ofs => some (pyDictGet ofs sub (Json.arr []))
  | _ => none

/-- The evaluation of `change.get(col, change.get("oldkeys", {}).get(sub, []))`
from `models.py`.  CPython evaluates the default argument before the
call, so the `oldkeys` chain must succeed even when `col` is present. -/
def colField (fs : List (String × Json)) (col sub : String) : Option Json :=
  match oldkeysGet fs sub with
  | some dflt => some (pyDictGet fs col dflt)
  | none => none

/-- `models.py` dataclass `Wal2JsonChange`.  The Python dataclass does not
enforce its annotations, so every field holds whatever JSON value the
decode copied into it. -/
structure Wal2JsonChange where
  kind : Json
  schema : Json
  table : Json
  columnnames : Json
  columntypes : Json
  columnvalues : Json
  oldkeys : Option Json

/-- `models.py` dataclass `Wal2JsonOutput`: the decoded batch. -/
structure Wal2JsonOutput where
  change : List Wal2JsonChange

/-- The body of the list comprehension in `Wal2JsonOutput.from_dict`:
builds one `Wal2JsonChange` from one element of `data["change"]`.
`none` models the comprehension body raising (`TypeError`, `KeyError` or
`AttributeError`). -/
def processChange (c : Json) : Option Wal2JsonChange :=
  match c with
  | Json.obj fs => do
      let k ← jsonGet? fs ("kind")
      let s ← jsonGet? fs ("schema")
      let t ← jsonGet? fs ("table")
      let cn ← colField fs ("columnnames") ("keynames")
      let ct ← colField fs ("columntypes") ("keytypes")
      let cv ← colField fs ("columnvalues") ("keyvalues")
      some ⟨k, s, t, cn, ct, cv, jsonGet? fs ("oldkeys")⟩
  | _ => none

/-- The list comprehension of `Wal2JsonOutput.from_dict` run over the
iterated elements: builds the records left to right, propagating the
first exception. -/
def processChanges (cs : List Json) : Option (List Wal2JsonChange) :=
  match cs with
  | [] => some []
  | c :: rest => do
      let r ← processChange c
      let rs ← processChanges rest
      some (r :: rs)

/-- `Wal2JsonOutput.from_dict` from `models.py`: subscript `data["change"]`,
iterate it, run the comprehension body on each element.  `none` models
the classmethod raising. -/
def from_dict (data : Json) : Option Wal2JsonOutput :=
  match pySubscript data ("change") with
  | none => none
  | some cv =>
    match pyIter cv with
    | none => none
    | some elems =>
      match processChanges elems with
      | none => none
      | some changes => some ⟨changes⟩

/-! ## LSN text parsing (`client.py`, `create_slot`)

`create_slot` parses the starting LSN out of the creation response with

    lsn_parts = slot_info[1].split('/')
    self._start_lsn = (int(lsn_parts[0], 16) << 32) | int(lsn_parts[1], 16)
-/

/-- The numeric value of one hexadecimal digit, or `none` for any other
character. -/
def hexDigitVal? (c : Char) : Option Nat :=
  if ('0') ≤ c ∧ c ≤ ('9') then some (c.toNat - ('0').toNat)
  else if ('a') ≤ c ∧ c ≤ ('f') then some (c.toNat - ('a').toNat + 10)
  else if ('A') ≤ c ∧ c ≤ ('F') then some (c.toNat - ('A').toNat + 10)
  else none

/-- Total value of a hexadecimal digit (`0` off the hex alphabet); used on
the specification side under an all-hex-digits hypothesis. -/
def hexVal (c : Char) : Nat :=
  (hexDigitVal? c).getD 0

/-- Left-to-right accumulation of hexadecimal digits, failing on the
first non-digit. -/
def parseHexCore (cs : List Char) (acc : Nat) : Option Nat :=
  match cs with
  | [] => some acc
  | c :: rest =>
    match hexDigitVal? c with
    | some d => parseHexCore rest (16 * acc + d)
    | none => none

/-- Python `int(s, 16)`, modelled on plain strings of hexadecimal digits:
fails (`ValueError`) on the empty string or on a non-digit.  (CPython
additionally strips whitespace and accepts signs, underscores and an
`0x` prefix; no value the program parses, and no claim, involves those
forms.) -/
def int16? (cs : List Char) : Option Nat :=
  match cs with
  | [] => none
  | _ => parseHexCore cs 0

/-- Python `str.split(sep)` for a one-character separator: splits into
the (possibly empty) chunks between occurrences of `sep`. -/
def splitOnChar (sep : Char) (cs : List Char) : List (List Char) :=
  match cs with
  | [] => [[]]
  | c :: rest =>
    if c = sep then [] :: splitOnChar sep rest
    else
      match splitOnChar sep rest with
      | [] => [[c]]
      | chunk :: chunks => (c :: chunk) :: chunks

/-- The LSN parse from `create_slot`: split the text on a slash, take the
first two parts, combine `(int(hi, 16) << 32) | int(lo, 16)`.  `none`
models the Python code raising (`IndexError` when there is no slash,
`ValueError` when a part is not hexadecimal). -/
def parseLsn (s : String) : Option Nat :=
  match splitOnChar ('/') s.data with
  | a :: b :: _ =>
    match int16? a, int16? b with
    | some hi, some lo => some ((hi <<< 32) ||| lo)
    | _, _ => none
  | _ => none

/-! ## Slot creation (`client.py`, `create_slot`)

The database server is an external collaborator; it is modelled by the
visible registry state (`Db`) plus an oracle (`CreateOutcome`) giving
the server's answer to the creation statement.  `create_slot`'s
observable behaviour — requests issued, start LSN recorded, error
propagated, admin connection closed — is collected in a result record. -/

/-- The server-side slot registry: the names in `pg_replication_slots`. -/
structure Db where
  slots : List String

/-- Oracle for `pg_create_logical_replication_slot`: either the creation
succeeds and the returned row carries `lsnText` in its LSN column
(`slot_info[1]`), or the statement raises a `psycopg2.Error` whose
string form is `msg`. -/
inductive CreateOutcome where
  | success (lsnText : String) : CreateOutcome
  | dbError (msg : String) : CreateOutcome

/-- An exception escaping `create_slot`: a re-raised `psycopg2.Error`
(the spec's `SlotCreationError`), or the non-database error raised while
parsing the returned LSN text (not caught by `except psycopg2.Error`). -/
inductive SlotErr where
  | dbError (msg : String) : SlotErr
  | lsnParseError : SlotErr

/-- Everything observable about one `create_slot` call. -/
structure SlotCallResult where
  /-- Registry after the call. -/
  db : Db
  /-- Creation statements issued, as (slot name, plugin) pairs. -/
  createRequests : List (String × String)
  /-- The `_start_lsn` assignment performed by this call, if any. -/
  startLsn : Option Nat
  /-- The exception propagated to the caller, if any. -/
  error : Option SlotErr
  /-- Whether the admin connection was closed (the `finally` block). -/
  connClosed : Bool

/-- `LogicalReplicationClient.create_slot`.  Queries the registry for
`slotName`; when no row exists, issues the creation statement and parses
the returned LSN.  A `psycopg2.Error` whose message contains
`already exists` is swallowed; any other one propagates.  The `finally`
block closes the admin connection on every path. -/
def create_slot (db : Db) (slotName plugin : String) (outcome : CreateOutcome) :
    SlotCallResult :=
  if (db.slots.filter (fun n => n = slotName)) ≠ [] then
    { db := db, createRequests := [], startLsn := none, error := none, connClosed := true }
  else
    match outcome with
    | CreateOutcome.success lsnText =>
      match parseLsn lsnText with
      | some lsn =>
        { db := { slots := slotName :: db.slots },
          createRequests := [(slotName, plugin)],
          startLsn := some lsn, error := none, connClosed := true }
      | none =>
        { db := { slots := slotName :: db.slots },
          createRequests := [(slotName, plugin)],
          startLsn := none, error := some SlotErr.lsnParseError, connClosed := true }
    | CreateOutcome.dbError msg =>
      if ("already exists").data <:+: msg.data then
        { db := db, createRequests := [(slotName, plugin)],
          startLsn := none, error := none, connClosed := true }
      else
        { db := db, createRequests := [(slotName, plugin)],
          startLsn := none, error := some (SlotErr.dbError msg), connClosed := true }

/-! ## The replication worker (`client.py`, `_replication_worker`)

The pump loop reads messages from the replication cursor.  A message's
payload either is falsy (keepalive), or fails `json.loads`, or parses to
a `Json` value; the external `json.loads` is modelled at exactly that
resolution.  The caller-supplied callback is modelled by an oracle
telling, per invocation, whether it returns normally or raises. -/

/-- One inbound message's payload as the worker sees it:
`empty` is a falsy payload (`if msg.payload:` fails), `malformed` is a
non-empty payload on which `json.loads` raises `JSONDecodeError`,
`wellFormed j` is a non-empty payload parsing to `j`. -/
inductive MsgPayload where
  | empty : MsgPayload
  | malformed : MsgPayload
  | wellFormed (j : Json) : MsgPayload

/-- One inbound replication message: `msg.data_start` (the log position)
and `msg.payload`. -/
structure Msg where
  data_start : Nat
  payload : MsgPayload

/-- Observable events of one worker-loop iteration, in program order. -/
inductive Ev where
  /-- `read_message` returned `None`: the idle `sleep(0.1)` branch. -/
  | idle : Ev
  /-- A message with a falsy payload was skipped. -/
  | noPayload : Ev
  /-- `json.loads` raised; the message was skipped via `continue`. -/
  | jsonError : Ev
  /-- The callback was invoked with this position and returned normally. -/
  | callbackOk (pos : Nat) : Ev
  /-- The callback was invoked with this position and raised. -/
  | callbackRaised (pos : Nat) : Ev
  /-- `except Exception` in the loop body caught an error. -/
  | procError : Ev
  /-- `send_feedback` was called with this position. -/
  | feedback (pos : Nat) : Ev

/-- One iteration of the worker loop body on one polled message (`none`
models `read_message()` returning `None`).  `cb pos out = true` means the
callback returned normally on that invocation; `false` means it raised,
which the loop's `except Exception` absorbs.  A `from_dict` failure is an
exception other than `JSONDecodeError` and takes the same `except` path
without any feedback being sent. -/
def workerStep (cb : Nat → Wal2JsonOutput → Bool) (m : Option Msg) : List Ev :=
  match m with
  | none => [Ev.idle]
  | some msg =>
    match msg.payload with
    | MsgPayload.empty => [Ev.noPayload]
    | MsgPayload.malformed => [Ev.jsonError]
    | MsgPayload.wellFormed j =>
      match from_dict j with
      | none => [Ev.procError]
      | some out =>
        if cb msg.data_start out then
          [Ev.callbackOk msg.data_start, Ev.feedback msg.data_start]
        else
          [Ev.callbackRaised msg.data_start, Ev.procError]

/-- The worker loop run over a finite sequence of poll results, during
which `self._running` stays true and a callback is installed: the
concatenated event trace, in program order. -/
def workerRun (cb : Nat → Wal2JsonOutput → Bool) (msgs : List (Option Msg)) : List Ev :=
  match msgs with
  | [] => []
  | m :: rest => workerStep cb m ++ workerRun cb rest

/-- The positions carried by the `send_feedback` calls of a trace, in
order. -/
def feedbackPositions (t : List Ev) : List Nat :=
  t.filterMap (fun e =>
    match e with
    | Ev.feedback pos => some pos
    | _ => none)

/-- Modelled from the spec: the positions that step 4/5 of the pump-loop
contract acknowledges — those of the messages with a non-empty payload
whose decode succeeded and whose callback invocation returned without
raising, in message order. -/
def specAckPositions (cb : Nat → Wal2JsonOutput → Bool) (msgs : List (Option Msg)) :
    List Nat :=
  msgs.filterMap (fun m =>
    match m with
    | none => none
    | some msg =>
      match msg.payload with
      | MsgPayload.wellFormed j =>
        match from_dict j with
        | some out => if cb msg.data_start out then some msg.data_start else none
        | none => none
      | _ => none)

/-! ## Session lifecycle (`client.py`, `stop`)

The mutable state `stop` touches is `self._running` and `self._thread`;
a thread handle is abstracted to a `Nat` identifier. -/

/-- The lifecycle state of `LogicalReplicationClient` that `stop` reads
and writes: `_running` and `_thread` (`none` when unset). -/
structure ClientState where
  running : Bool
  thread : Option Nat

/-- `LogicalReplicationClient.stop`: clear `_running`; when `_thread` is
set, join it (with timeout 5) and reset the field.  Returns the new
state and the list of join calls issued. -/
def stop (s : ClientState) : ClientState × List Nat :=
  let s1 : ClientState := { s with running := false }
  match s1.thread with
  | some t => ({ s1 with thread := none }, [t])
  | none => (s1, [])

/-! ## Helper lemmas about the decoder -/

/-- A change-list element on which the comprehension body raises:
not a dict, or missing one of the three mandatory keys, or carrying a
non-dict `oldkeys` entry. -/
def changeObjBad (c : Json) : Prop :=
  match c with
  | Json.obj fs =>
      jsonGet? fs ("kind") = none ∨ jsonGet? fs ("schema") = none ∨
      jsonGet? fs ("table") = none ∨
      (∃ v, jsonGet? fs ("oldkeys") = some v ∧ ∀ ofs, v ≠ Json.obj ofs)
  | _ => True

theorem oldkeysGet_eq_none_iff (fs : List (String × Json)) (sub : String) :
    oldkeysGet fs sub = none ↔
      ∃ v, jsonGet? fs ("oldkeys") = some v ∧ ∀ ofs, v ≠ Json.obj ofs := by
  unfold oldkeysGet pyDictGet
  cases h : jsonGet? fs ("oldkeys") with
  | none => simp
  | some v =>
    cases v <;> simp_all

theorem colField_eq_none_iff (fs : List (String × Json)) (col sub : String) :
    colField fs col sub = none ↔ oldkeysGet fs sub = none := by
  unfold colField
  cases h : oldkeysGet fs sub <;> simp


theorem processChange_eq_none_iff (c : Json) :
    processChange c = none ↔ changeObjBad c := by
  cases c with
  | obj fs =>
    simp only [processChange, changeObjBad]
    cases hk : jsonGet? fs ("kind") with
    | none => simp
    | some k =>
      cases hs : jsonGet? fs ("schema") with
      | none => simp
      | some s =>
        cases ht : jsonGet? fs ("table") with
        | none => simp
        | some t =>
          simp only [Option.bind_eq_bind, Option.some_bind, reduceCtorEq, false_or]
          cases hn : colField fs ("columnnames") ("keynames") with
          | none =>
            simp only [Option.bind_eq_bind, Option.none_bind, true_iff]
            exact (oldkeysGet_eq_none_iff fs ("keynames")).mp
              ((colField_eq_none_iff fs ("columnnames") ("keynames")).mp hn)
          | some cn =>
            cases htp : colField fs ("columntypes") ("keytypes") with
            | none =>
              simp only [Option.bind_eq_bind, Option.some_bind, Option.none_bind, true_iff]
              exact (oldkeysGet_eq_none_iff fs ("keytypes")).mp
                ((colField_eq_none_iff fs ("columntypes") ("keytypes")).mp htp)
            | some ct =>
              cases hv : colField fs ("columnvalues") ("keyvalues") with
              | none =>
                simp only [Option.bind_eq_bind, Option.some_bind, Option.none_bind, true_iff]
                exact (oldkeysGet_eq_none_iff fs ("keyvalues")).mp
                  ((colField_eq_none_iff fs ("columnvalues") ("keyvalues")).mp hv)
              | some cv =>
                simp only [Option.bind_eq_bind, Option.some_bind, reduceCtorEq, false_iff]
                intro hbad
                rcases hbad with ⟨v, hvv, hnot⟩
                have hok : colField fs ("columnnames") ("keynames") = none := by
                  rw [colField_eq_none_iff]
                  exact (oldkeysGet_eq_none_iff fs ("keynames")).mpr ⟨v, hvv, hnot⟩
                simp [hok] at hn
  | null => simp [processChange, changeObjBad]
  | bool b => simp [processChange, changeObjBad]
  | num n => simp [processChange, changeObjBad]
  | str s => simp [processChange, changeObjBad]
  | arr xs => simp [processChange, changeObjBad]

theorem processChanges_forall₂ (cs : List Json) (rs : List Wal2JsonChange) :
    processChanges cs = some rs ↔
      List.Forall₂ (fun c r => processChange c = some r) cs rs := by
  induction cs generalizing rs with
  | nil =>
    cases rs <;> simp [processChanges]
  | cons c rest ih =>
    simp only [processChanges, Option.bind_eq_bind]
    cases hr : processChange c with
    | none =>
      cases rs <;> simp [hr]
    | some r0 =>
      cases hrest : processChanges rest with
      | none =>
        cases rs with
        | nil => simp
        | cons r rs' =>
          simp only [Option.some_bind, Option.none_bind, reduceCtorEq, false_iff,
            List.forall₂_cons, not_and]
          intro h1 h2
          have h3 := (ih rs').mpr h2
          rw [hrest] at h3
          cases h3
      | some rs0 =>
        cases rs with
        | nil => simp
        | cons r rs' =>
          simp only [Option.some_bind, Option.some.injEq, List.cons.injEq,
            List.forall₂_cons]
          constructor
          · rintro ⟨h1, h2⟩
            subst h1
            subst h2
            exact ⟨hr, (ih rs0).mp hrest⟩
          · rintro ⟨h1, h2⟩
            rw [hr] at h1
            cases h1
            have h3 := (ih rs').mpr h2
            rw [hrest] at h3
            cases h3
            exact ⟨rfl, rfl⟩

theorem processChanges_eq_none_iff (cs : List Json) :
    processChanges cs = none ↔ ∃ c ∈ cs, processChange c = none := by
  induction cs with
  | nil => simp [processChanges]
  | cons c rest ih =>
    simp only [processChanges, Option.bind_eq_bind]
    cases hr : processChange c with
    | none => simp [hr]
    | some r0 =>
      cases hrest : processChanges rest with
      | none =>
        simp only [Option.some_bind, Option.none_bind, true_iff]
        rcases ih.mp hrest with ⟨c0, hc0, hc0n⟩
        exact ⟨c0, List.mem_cons_of_mem _ hc0, hc0n⟩
      | some rs0 =>
        simp only [Option.some_bind, reduceCtorEq, false_iff, not_exists]
        intro c0 hc0
        rcases hc0 with ⟨hmem, hn⟩
        rcases List.mem_cons.mp hmem with h | h
        · subst h
          rw [hr] at hn
          cases hn
        · have h3 := ih.mpr ⟨c0, h, hn⟩
          rw [hrest] at h3
          cases h3

theorem oldkeysGet_of_absent (fs : List (String × Json)) (sub : String)
    (h : jsonGet? fs ("oldkeys") = none) :
    oldkeysGet fs sub = some (Json.arr []) := by
  simp [oldkeysGet, pyDictGet, h, jsonGet?]

theorem oldkeysGet_of_obj (fs : List (String × Json)) (sub : String)
    (ofs : List (String × Json)) (h : jsonGet? fs ("oldkeys") = some (Json.obj ofs)) :
    oldkeysGet fs sub = some (pyDictGet ofs sub (Json.arr [])) := by
  simp [oldkeysGet, pyDictGet, h]

theorem colField_of_oldkeysGet (fs : List (String × Json)) (col sub : String)
    (dflt : Json) (h : oldkeysGet fs sub = some dflt) :
    colField fs col sub = some (pyDictGet fs col dflt) := by
  simp [colField, h]

theorem pyDictGet_of_present (fs : List (String × Json)) (k : String) (v dflt : Json)
    (h : jsonGet? fs k = some v) : pyDictGet fs k dflt = v := by
  simp [pyDictGet, h]

theorem pyDictGet_of_absent (fs : List (String × Json)) (k : String) (dflt : Json)
    (h : jsonGet? fs k = none) : pyDictGet fs k dflt = dflt := by
  simp [pyDictGet, h]

theorem processChange_obj_eq_some_iff (fs : List (String × Json)) (r : Wal2JsonChange) :
    processChange (Json.obj fs) = some r ↔
      ∃ k s t cn ct cv,
        jsonGet? fs ("kind") = some k ∧ jsonGet? fs ("schema") = some s ∧
        jsonGet? fs ("table") = some t ∧
        colField fs ("columnnames") ("keynames") = some cn ∧
        colField fs ("columntypes") ("keytypes") = some ct ∧
        colField fs ("columnvalues") ("keyvalues") = some cv ∧
        r = ⟨k, s, t, cn, ct, cv, jsonGet? fs ("oldkeys")⟩ := by
  simp only [processChange, Option.bind_eq_bind, Option.bind_eq_some, Option.some.injEq]
  constructor
  · rintro ⟨k, hk, s, hs, t, ht, cn, hcn, ct, hct, cv, hcv, hr⟩
    exact ⟨k, s, t, cn, ct, cv, hk, hs, ht, hcn, hct, hcv, hr.symm⟩
  · rintro ⟨k, s, t, cn, ct, cv, hk, hs, ht, hcn, hct, hcv, hr⟩
    exact ⟨k, hk, s, hs, t, ht, cn, hcn, ct, hct, cv, hcv, hr.symm⟩

theorem forall₂_mem_right {α β : Type} {R : α → β → Prop} {l : List α} {l' : List β}
    (h : List.Forall₂ R l l') {b : β} (hb : b ∈ l') : ∃ a ∈ l, R a b := by
  induction h with
  | nil => cases hb
  | cons h1 _ ih =>
    rcases List.mem_cons.mp hb with rfl | hb'
    · exact ⟨_, List.mem_cons_self _ _, h1⟩
    · rcases ih hb' with ⟨a, ha, hr⟩
      exact ⟨a, List.mem_cons_of_mem _ ha, hr⟩

theorem processChanges_of_pointwise {P : Json → Wal2JsonChange → Prop} (cs : List Json)
    (h : ∀ c ∈ cs, ∃ r, processChange c = some r ∧ P c r) :
    ∃ rs, processChanges cs = some rs ∧ List.Forall₂ P cs rs := by
  induction cs with
  | nil => exact ⟨[], rfl, List.Forall₂.nil⟩
  | cons c rest ih =>
    rcases h c (List.mem_cons_self _ _) with ⟨r, hr, hp⟩
    rcases ih (fun c0 hc0 => h c0 (List.mem_cons_of_mem _ hc0)) with ⟨rs, hrs, hf⟩
    refine ⟨r :: rs, ?_, List.Forall₂.cons hp hf⟩
    simp [processChanges, Option.bind_eq_bind, hr, hrs]

/-! ## The claims -/

/-- C10: calling `stop` when no session was ever started (`_thread` still
unset) returns without raising, issues no join, and only clears the
running flag; a second consecutive `stop` is likewise a safe no-op, and
after any `stop` the worker-thread field is reset to unset. -/
theorem C10_stop_before_start (s : ClientState) (h : s.thread = none) :
    stop s = ({ running := false, thread := none }, []) ∧
    stop (stop s).1 = ({ running := false, thread := none }, []) ∧
    (∀ s' : ClientState, ((stop s').1).thread = none) := by
  obtain ⟨r, th⟩ := s
  simp only at h
  subst h
  refine ⟨rfl, rfl, ?_⟩
  intro s'
  obtain ⟨r', th'⟩ := s'
  cases th' <;> rfl

theorem C10_stop_before_start_witness :
    stop { running := true, thread := none } = ({ running := false, thread := none }, []) := by
  exact (C10_stop_before_start { running := true, thread := none } rfl).1

/-- C2: for a change object carrying an `oldkeys` descriptor with
`keynames`/`keytypes`/`keyvalues` and no top-level column arrays, the
decoded record's column arrays equal the old-key arrays exactly; when
neither the top-level arrays nor `oldkeys` are present the decoded
arrays are empty; and any decoded record's `oldkeys` field carries the
input's `oldkeys` entry verbatim whenever it is present. -/
theorem C2_oldkeys_fallback (fs : List (String × Json)) (k s t : Json)
    (hk : jsonGet? fs ("kind") = some k)
    (hs : jsonGet? fs ("schema") = some s)
    (ht : jsonGet? fs ("table") = some t) :
    (∀ (ofs : List (String × Json)) (kn kt kv : Json),
      jsonGet? fs ("oldkeys") = some (Json.obj ofs) →
      jsonGet? fs ("columnnames") = none →
      jsonGet? fs ("columntypes") = none →
      jsonGet? fs ("columnvalues") = none →
      jsonGet? ofs ("keynames") = some kn →
      jsonGet? ofs ("keytypes") = some kt →
      jsonGet? ofs ("keyvalues") = some kv →
      processChange (Json.obj fs) =
        some ⟨k, s, t, kn, kt, kv, some (Json.obj ofs)⟩) ∧
    (jsonGet? fs ("oldkeys") = none →
      jsonGet? fs ("columnnames") = none →
      jsonGet? fs ("columntypes") = none →
      jsonGet? fs ("columnvalues") = none →
      processChange (Json.obj fs) =
        some ⟨k, s, t, Json.arr [], Json.arr [], Json.arr [], none⟩) ∧
    (∀ (v : Json) (r : Wal2JsonChange),
      jsonGet? fs ("oldkeys") = some v →
      processChange (Json.obj fs) = some r → r.oldkeys = some v) := by
  refine ⟨?_, ?_, ?_⟩
  · intro ofs kn kt kv hok hcn hct hcv hkn hkt hkv
    have e1 := colField_of_oldkeysGet fs ("columnnames") ("keynames") _
      (oldkeysGet_of_obj fs ("keynames") ofs hok)
    have e2 := colField_of_oldkeysGet fs ("columntypes") ("keytypes") _
      (oldkeysGet_of_obj fs ("keytypes") ofs hok)
    have e3 := colField_of_oldkeysGet fs ("columnvalues") ("keyvalues") _
      (oldkeysGet_of_obj fs ("keyvalues") ofs hok)
    rw [pyDictGet_of_present ofs ("keynames") kn _ hkn, pyDictGet_of_absent fs _ _ hcn] at e1
    rw [pyDictGet_of_present ofs ("keytypes") kt _ hkt, pyDictGet_of_absent fs _ _ hct] at e2
    rw [pyDictGet_of_present ofs ("keyvalues") kv _ hkv, pyDictGet_of_absent fs _ _ hcv] at e3
    rw [processChange_obj_eq_some_iff]
    exact ⟨k, s, t, kn, kt, kv, hk, hs, ht, e1, e2, e3, by rw [hok]⟩
  · intro hok hcn hct hcv
    have e1 := colField_of_oldkeysGet fs ("columnnames") ("keynames") _
      (oldkeysGet_of_absent fs ("keynames") hok)
    have e2 := colField_of_oldkeysGet fs ("columntypes") ("keytypes") _
      (oldkeysGet_of_absent fs ("keytypes") hok)
    have e3 := colField_of_oldkeysGet fs ("columnvalues") ("keyvalues") _
      (oldkeysGet_of_absent fs ("keyvalues") hok)
    rw [pyDictGet_of_absent fs _ _ hcn] at e1
    rw [pyDictGet_of_absent fs _ _ hct] at e2
    rw [pyDictGet_of_absent fs _ _ hcv] at e3
    rw [processChange_obj_eq_some_iff]
    exact ⟨k, s, t, Json.arr [], Json.arr [], Json.arr [], hk, hs, ht, e1, e2, e3, by rw [hok]⟩
  · intro v r hok hr
    rcases (processChange_obj_eq_some_iff fs r).mp hr with
      ⟨k', s', t', cn, ct, cv, _, _, _, _, _, _, hrec⟩
    rw [hrec]
    simpa using hok

theorem C2_oldkeys_fallback_witness :
    processChange (Json.obj [(("kind"), Json.str ("delete")), (("schema"), Json.str ("public")),
      (("table"), Json.str ("users")),
      (("oldkeys"), Json.obj [(("keynames"), Json.arr [Json.str ("id")]),
        (("keytypes"), Json.arr [Json.str ("bigint")]),
        (("keyvalues"), Json.arr [Json.num 7])])]) =
      some ⟨Json.str ("delete"), Json.str ("public"), Json.str ("users"),
        Json.arr [Json.str ("id")], Json.arr [Json.str ("bigint")], Json.arr [Json.num 7],
        some (Json.obj [(("keynames"), Json.arr [Json.str ("id")]),
          (("keytypes"), Json.arr [Json.str ("bigint")]),
          (("keyvalues"), Json.arr [Json.num 7])])⟩ := by
  exact (C2_oldkeys_fallback
      [(("kind"), Json.str ("delete")), (("schema"), Json.str ("public")),
       (("table"), Json.str ("users")),
       (("oldkeys"), Json.obj [(("keynames"), Json.arr [Json.str ("id")]),
         (("keytypes"), Json.arr [Json.str ("bigint")]),
         (("keyvalues"), Json.arr [Json.num 7])])]
      (Json.str ("delete")) (Json.str ("public")) (Json.str ("users"))
      rfl rfl rfl).1
    [(("keynames"), Json.arr [Json.str ("id")]),
     (("keytypes"), Json.arr [Json.str ("bigint")]),
     (("keyvalues"), Json.arr [Json.num 7])]
    (Json.arr [Json.str ("id")]) (Json.arr [Json.str ("bigint")]) (Json.arr [Json.num 7])
    rfl rfl rfl rfl rfl rfl rfl

/-- C5 counterexample: a change object whose `kind` is `truncate` — not
one of `insert`, `update`, `delete` — decodes successfully into a record
carrying that kind, instead of failing with a decode error. -/
theorem C5_counterexample :
    from_dict (Json.obj [(("change"), Json.arr [Json.obj
        [(("kind"), Json.str ("truncate")), (("schema"), Json.str ("public")),
         (("table"), Json.str ("users")), (("columnnames"), Json.arr []),
         (("columntypes"), Json.arr []), (("columnvalues"), Json.arr [])]])]) =
      some ⟨[⟨Json.str ("truncate"), Json.str ("public"), Json.str ("users"),
        Json.arr [], Json.arr [], Json.arr [], none⟩]⟩ ∧
    ("truncate") ≠ ("insert") ∧ ("truncate") ≠ ("update") ∧ ("truncate") ≠ ("delete") := by
  refine ⟨rfl, ?_, ?_, ?_⟩ <;> decide

/-- C5 amended: the decoder does not validate the `kind` value at all —
for a change object carrying the three mandatory keys (and a dict or no
`oldkeys` entry), decode succeeds for every `kind` value whatsoever and
copies it verbatim into the record. -/
theorem C5_kind_unvalidated (fs : List (String × Json)) (k s t : Json)
    (hk : jsonGet? fs ("kind") = some k)
    (hs : jsonGet? fs ("schema") = some s)
    (ht : jsonGet? fs ("table") = some t)
    (hok : jsonGet? fs ("oldkeys") = none ∨
      ∃ ofs, jsonGet? fs ("oldkeys") = some (Json.obj ofs)) :
    ∃ r, processChange (Json.obj fs) = some r ∧ r.kind = k := by
  have hdflt : ∃ d1 d2 d3,
      oldkeysGet fs ("keynames") = some d1 ∧
      oldkeysGet fs ("keytypes") = some d2 ∧
      oldkeysGet fs ("keyvalues") = some d3 := by
    rcases hok with hok | ⟨ofs, hok⟩
    · exact ⟨Json.arr [], Json.arr [], Json.arr [],
        oldkeysGet_of_absent fs ("keynames") hok, oldkeysGet_of_absent fs ("keytypes") hok,
        oldkeysGet_of_absent fs ("keyvalues") hok⟩
    · exact ⟨pyDictGet ofs ("keynames") (Json.arr []),
        pyDictGet ofs ("keytypes") (Json.arr []),
        pyDictGet ofs ("keyvalues") (Json.arr []),
        oldkeysGet_of_obj fs ("keynames") ofs hok, oldkeysGet_of_obj fs ("keytypes") ofs hok,
        oldkeysGet_of_obj fs ("keyvalues") ofs hok⟩
  rcases hdflt with ⟨d1, d2, d3, hd1, hd2, hd3⟩
  have e1 := colField_of_oldkeysGet fs ("columnnames") ("keynames") d1 hd1
  have e2 := colField_of_oldkeysGet fs ("columntypes") ("keytypes") d2 hd2
  have e3 := colField_of_oldkeysGet fs ("columnvalues") ("keyvalues") d3 hd3
  refine ⟨⟨k, s, t, pyDictGet fs ("columnnames") d1,
    pyDictGet fs ("columntypes") d2, pyDictGet fs ("columnvalues") d3,
    jsonGet? fs ("oldkeys")⟩, ?_, rfl⟩
  rw [processChange_obj_eq_some_iff]
  exact ⟨k, s, t, pyDictGet fs ("columnnames") d1,
    pyDictGet fs ("columntypes") d2, pyDictGet fs ("columnvalues") d3,
    hk, hs, ht, e1, e2, e3, rfl⟩

theorem C5_kind_unvalidated_witness :
    (processChange (Json.obj [(("kind"), Json.num 42), (("schema"), Json.str ("s")),
      (("table"), Json.str ("t"))])).map Wal2JsonChange.kind = some (Json.num 42) ∧
    (processChange (Json.obj [(("kind"), Json.str ("truncate")), (("schema"), Json.str ("s")),
      (("table"), Json.str ("t")),
      (("oldkeys"), Json.obj [(("keynames"), Json.arr [Json.str ("id")])])])).map
        Wal2JsonChange.kind = some (Json.str ("truncate")) := by
  constructor
  · obtain ⟨r, hr, hk⟩ := C5_kind_unvalidated
      [(("kind"), Json.num 42), (("schema"), Json.str ("s")), (("table"), Json.str ("t"))]
      (Json.num 42) (Json.str ("s")) (Json.str ("t")) rfl rfl rfl (Or.inl rfl)
    rw [hr]
    simp [hk]
  · obtain ⟨r, hr, hk⟩ := C5_kind_unvalidated
      [(("kind"), Json.str ("truncate")), (("schema"), Json.str ("s")),
       (("table"), Json.str ("t")),
       (("oldkeys"), Json.obj [(("keynames"), Json.arr [Json.str ("id")])])]
      (Json.str ("truncate")) (Json.str ("s")) (Json.str ("t")) rfl rfl rfl
      (Or.inr ⟨[(("keynames"), Json.arr [Json.str ("id")])], rfl⟩)
    rw [hr]
    simp [hk]

/-- C4 counterexample: a payload whose single change object carries one
column name but zero column types and zero column values decodes
successfully, so a successfully decoded record can violate
`len(columnnames) == len(columntypes) == len(columnvalues)`. -/
theorem C4_counterexample :
    from_dict (Json.obj [(("change"), Json.arr [Json.obj
        [(("kind"), Json.str ("insert")), (("schema"), Json.str ("s")),
         (("table"), Json.str ("t")), (("columnnames"), Json.arr [Json.str ("a")]),
         (("columntypes"), Json.arr []), (("columnvalues"), Json.arr [])]])]) =
      some ⟨[⟨Json.str ("insert"), Json.str ("s"), Json.str ("t"),
        Json.arr [Json.str ("a")], Json.arr [], Json.arr [], none⟩]⟩ ∧
    [Json.str ("a")].length ≠ ([] : List Json).length := by
  exact ⟨rfl, by decide⟩

/-- Python `len()` restricted to lists: the length of a JSON array,
`none` on any other value (Python would raise on most of them). -/
def jsonArrLen? (j : Json) : Option Nat :=
  match j with
  | Json.arr l => some l.length
  | _ => none

/-- A change object whose effective column arrays — the ones the decode
rule selects, after the `oldkeys` fallback — are lists of equal length. -/
def effectiveColsEqualLen (c : Json) : Prop :=
  ∃ fs ns ts vs,
    c = Json.obj fs ∧
    colField fs ("columnnames") ("keynames") = some (Json.arr ns) ∧
    colField fs ("columntypes") ("keytypes") = some (Json.arr ts) ∧
    colField fs ("columnvalues") ("keyvalues") = some (Json.arr vs) ∧
    ns.length = ts.length ∧ ts.length = vs.length

/-- C4 amended: the decoder copies the column arrays without any length
check, so the invariant `len(columnnames) == len(columntypes) ==
len(columnvalues)` holds for the records of a successfully decoded
payload exactly when the effective source arrays already satisfy it:
under the hypothesis that every change object's effective arrays are
equally long lists, every decoded record's arrays are equally long. -/
theorem C4_invariant_conditional (data : Json) (out : Wal2JsonOutput)
    (hd : from_dict data = some out)
    (hgood : ∀ (dfs : List (String × Json)) (cv : Json) (elems : List Json) (c : Json),
      data = Json.obj dfs → jsonGet? dfs ("change") = some cv →
      pyIter cv = some elems → c ∈ elems → effectiveColsEqualLen c) :
    ∀ r ∈ out.change,
      jsonArrLen? r.columnnames = jsonArrLen? r.columntypes ∧
      jsonArrLen? r.columntypes = jsonArrLen? r.columnvalues ∧
      (jsonArrLen? r.columnnames).isSome = true := by
  intro r hr
  cases data with
  | obj dfs =>
    simp only [from_dict, pySubscript] at hd
    cases hcv : jsonGet? dfs ("change") with
    | none => simp [hcv] at hd
    | some cv =>
      cases hel : pyIter cv with
      | none => simp [hcv, hel] at hd
      | some elems =>
        cases hch : processChanges elems with
        | none => simp [hcv, hel, hch] at hd
        | some changes =>
          simp only [hcv, hel, hch, Option.some.injEq] at hd
          cases hd
          have hf := (processChanges_forall₂ elems changes).mp hch
          rcases forall₂_mem_right hf hr with ⟨c, hc, hcr⟩
          rcases hgood dfs cv elems c rfl hcv hel hc with
            ⟨fs, ns, ts, vs, hcfs, hn, ht, hv, hlen1, hlen2⟩
          subst hcfs
          rcases (processChange_obj_eq_some_iff fs r).mp hcr with
            ⟨k', s', t', cn, ct, cv', _, _, _, hcn', hct', hcv', hrec⟩
          rw [hn] at hcn'
          rw [ht] at hct'
          rw [hv] at hcv'
          cases hcn'
          cases hct'
          cases hcv'
          rw [hrec]
          simp [jsonArrLen?, hlen1, hlen2]
  | null => cases hd
  | bool b => cases hd
  | num n => cases hd
  | str s => cases hd
  | arr xs => cases hd

theorem C4_invariant_conditional_witness :
    jsonArrLen? (Json.arr [Json.str ("a")]) = jsonArrLen? (Json.arr [Json.str ("text")]) ∧
    jsonArrLen? (Json.arr [Json.str ("text")]) = jsonArrLen? (Json.arr [Json.num 1]) ∧
    (jsonArrLen? (Json.arr [Json.str ("a")])).isSome = true := by
  refine (C4_invariant_conditional
    (Json.obj [(("change"), Json.arr [Json.obj
      [(("kind"), Json.str ("insert")), (("schema"), Json.str ("s")),
       (("table"), Json.str ("t")), (("columnnames"), Json.arr [Json.str ("a")]),
       (("columntypes"), Json.arr [Json.str ("text")]),
       (("columnvalues"), Json.arr [Json.num 1])]])])
    (Wal2JsonOutput.mk [⟨Json.str ("insert"), Json.str ("s"), Json.str ("t"),
      Json.arr [Json.str ("a")], Json.arr [Json.str ("text")], Json.arr [Json.num 1],
      none⟩]) rfl ?_)
    (⟨Json.str ("insert"), Json.str ("s"), Json.str ("t"),
      Json.arr [Json.str ("a")], Json.arr [Json.str ("text")], Json.arr [Json.num 1],
      none⟩ : Wal2JsonChange) (List.mem_singleton.mpr rfl)
  intro dfs cv elems c hdfs hcv hel hc
  cases hdfs
  cases hcv
  cases hel
  rcases List.mem_singleton.mp hc with rfl
  exact ⟨[(("kind"), Json.str ("insert")), (("schema"), Json.str ("s")),
    (("table"), Json.str ("t")), (("columnnames"), Json.arr [Json.str ("a")]),
    (("columntypes"), Json.arr [Json.str ("text")]),
    (("columnvalues"), Json.arr [Json.num 1])],
    [Json.str ("a")], [Json.str ("text")], [Json.num 1], rfl, rfl, rfl, rfl, rfl, rfl⟩

/-- C3 counterexample: a payload whose single change object fully
specifies `kind`, `schema`, `table` and equal-length column arrays, yet
decode fails, because its `oldkeys` entry is a non-dict and the eagerly
evaluated fallback `change.get("oldkeys", {}).get("keynames", [])`
raises even when the top-level arrays are present. -/
theorem C3_counterexample :
    from_dict (Json.obj [(("change"), Json.arr [Json.obj
        [(("kind"), Json.str ("insert")), (("schema"), Json.str ("s")),
         (("table"), Json.str ("t")), (("columnnames"), Json.arr [Json.str ("a")]),
         (("columntypes"), Json.arr [Json.str ("text")]),
         (("columnvalues"), Json.arr [Json.num 1]),
         (("oldkeys"), Json.num 5)]])]) = none ∧
    jsonGet? [(("kind"), Json.str ("insert")), (("schema"), Json.str ("s")),
         (("table"), Json.str ("t")), (("columnnames"), Json.arr [Json.str ("a")]),
         (("columntypes"), Json.arr [Json.str ("text")]),
         (("columnvalues"), Json.arr [Json.num 1]),
         (("oldkeys"), Json.num 5)] ("kind") = some (Json.str ("insert")) ∧
    jsonGet? [(("kind"), Json.str ("insert")), (("schema"), Json.str ("s")),
         (("table"), Json.str ("t")), (("columnnames"), Json.arr [Json.str ("a")]),
         (("columntypes"), Json.arr [Json.str ("text")]),
         (("columnvalues"), Json.arr [Json.num 1]),
         (("oldkeys"), Json.num 5)] ("schema") = some (Json.str ("s")) ∧
    jsonGet? [(("kind"), Json.str ("insert")), (("schema"), Json.str ("s")),
         (("table"), Json.str ("t")), (("columnnames"), Json.arr [Json.str ("a")]),
         (("columntypes"), Json.arr [Json.str ("text")]),
         (("columnvalues"), Json.arr [Json.num 1]),
         (("oldkeys"), Json.num 5)] ("table") = some (Json.str ("t")) ∧
    jsonGet? [(("kind"), Json.str ("insert")), (("schema"), Json.str ("s")),
         (("table"), Json.str ("t")), (("columnnames"), Json.arr [Json.str ("a")]),
         (("columntypes"), Json.arr [Json.str ("text")]),
         (("columnvalues"), Json.arr [Json.num 1]),
         (("oldkeys"), Json.num 5)] ("columnnames") = some (Json.arr [Json.str ("a")]) ∧
    jsonGet? [(("kind"), Json.str ("insert")), (("schema"), Json.str ("s")),
         (("table"), Json.str ("t")), (("columnnames"), Json.arr [Json.str ("a")]),
         (("columntypes"), Json.arr [Json.str ("text")]),
         (("columnvalues"), Json.arr [Json.num 1]),
         (("oldkeys"), Json.num 5)] ("columntypes") = some (Json.arr [Json.str ("text")]) ∧
    jsonGet? [(("kind"), Json.str ("insert")), (("schema"), Json.str ("s")),
         (("table"), Json.str ("t")), (("columnnames"), Json.arr [Json.str ("a")]),
         (("columntypes"), Json.arr [Json.str ("text")]),
         (("columnvalues"), Json.arr [Json.num 1]),
         (("oldkeys"), Json.num 5)] ("columnvalues") = some (Json.arr [Json.num 1]) := by
  exact ⟨rfl, rfl, rfl, rfl, rfl, rfl, rfl⟩

/-- A change object that fully specifies `kind`, `schema`, `table` and
the three column arrays as equal-length lists, and — the amendment —
whose `oldkeys` entry, if present, is itself a dict. -/
def fullySpecified (c : Json) : Prop :=
  ∃ fs k s t, ∃ ns ts vs : List Json,
    c = Json.obj fs ∧
    jsonGet? fs ("kind") = some k ∧ jsonGet? fs ("schema") = some s ∧
    jsonGet? fs ("table") = some t ∧
    jsonGet? fs ("columnnames") = some (Json.arr ns) ∧
    jsonGet? fs ("columntypes") = some (Json.arr ts) ∧
    jsonGet? fs ("columnvalues") = some (Json.arr vs) ∧
    ns.length = ts.length ∧ ts.length = vs.length ∧
    (∀ v, jsonGet? fs ("oldkeys") = some v → ∃ ofs, v = Json.obj ofs)

/-- The decoded record copies every field of the change object verbatim:
its `kind`/`schema`/`table`/column entries are exactly the object's
entries, and its `oldkeys` field is exactly the object's optional
`oldkeys` entry. -/
def recordMatches (c : Json) (r : Wal2JsonChange) : Prop :=
  ∃ fs, c = Json.obj fs ∧
    jsonGet? fs ("kind") = some r.kind ∧
    jsonGet? fs ("schema") = some r.schema ∧
    jsonGet? fs ("table") = some r.table ∧
    jsonGet? fs ("columnnames") = some r.columnnames ∧
    jsonGet? fs ("columntypes") = some r.columntypes ∧
    jsonGet? fs ("columnvalues") = some r.columnvalues ∧
    r.oldkeys = jsonGet? fs ("oldkeys")

/-- C3 amended: for a payload whose `change` list holds N fully
specified change objects (with the amendment that any `oldkeys` entry
present must itself be a dict — a fully specified object with a
non-dict `oldkeys` makes decode fail instead), decode yields a batch of
exactly N records, in order, with every field copied verbatim. -/
theorem C3_verbatim_decode (dfs : List (String × Json)) (cs : List Json)
    (hch : jsonGet? dfs ("change") = some (Json.arr cs))
    (hfull : ∀ c ∈ cs, fullySpecified c) :
    ∃ out, from_dict (Json.obj dfs) = some out ∧
      out.change.length = cs.length ∧
      List.Forall₂ recordMatches cs out.change := by
  have hpt : ∀ c ∈ cs, ∃ r, processChange c = some r ∧ recordMatches c r := by
    intro c hc
    rcases hfull c hc with ⟨fs, k, s, t, ns, ts, vs, hcfs, hk, hs, ht, hn, htp, hv, _, _, hokc⟩
    subst hcfs
    have hdflt : ∃ dflt1 dflt2 dflt3,
        oldkeysGet fs ("keynames") = some dflt1 ∧
        oldkeysGet fs ("keytypes") = some dflt2 ∧
        oldkeysGet fs ("keyvalues") = some dflt3 := by
      cases hoke : jsonGet? fs ("oldkeys") with
      | none =>
        exact ⟨Json.arr [], Json.arr [], Json.arr [],
          oldkeysGet_of_absent fs _ hoke, oldkeysGet_of_absent fs _ hoke,
          oldkeysGet_of_absent fs _ hoke⟩
      | some v =>
        rcases hokc v hoke with ⟨ofs, rfl⟩
        exact ⟨pyDictGet ofs ("keynames") (Json.arr []),
          pyDictGet ofs ("keytypes") (Json.arr []),
          pyDictGet ofs ("keyvalues") (Json.arr []),
          oldkeysGet_of_obj fs _ ofs hoke, oldkeysGet_of_obj fs _ ofs hoke,
          oldkeysGet_of_obj fs _ ofs hoke⟩
    rcases hdflt with ⟨d1, d2, d3, hd1, hd2, hd3⟩
    have e1 := colField_of_oldkeysGet fs ("columnnames") ("keynames") _ hd1
    have e2 := colField_of_oldkeysGet fs ("columntypes") ("keytypes") _ hd2
    have e3 := colField_of_oldkeysGet fs ("columnvalues") ("keyvalues") _ hd3
    rw [pyDictGet_of_present fs _ _ _ hn] at e1
    rw [pyDictGet_of_present fs _ _ _ htp] at e2
    rw [pyDictGet_of_present fs _ _ _ hv] at e3
    refine ⟨⟨k, s, t, Json.arr ns, Json.arr ts, Json.arr vs, jsonGet? fs ("oldkeys")⟩, ?_, ?_⟩
    · rw [processChange_obj_eq_some_iff]
      exact ⟨k, s, t, Json.arr ns, Json.arr ts, Json.arr vs, hk, hs, ht, e1, e2, e3, rfl⟩
    · exact ⟨fs, rfl, hk, hs, ht, hn, htp, hv, rfl⟩
  rcases processChanges_of_pointwise cs hpt with ⟨rs, hrs, hf⟩
  refine ⟨⟨rs⟩, ?_, ?_, hf⟩
  · simp [from_dict, pySubscript, hch, pyIter, hrs]
  · exact (List.Forall₂.length_eq hf).symm

theorem C3_verbatim_decode_witness :
    (from_dict (Json.obj [(("change"), Json.arr [Json.obj
        [(("kind"), Json.str ("insert")), (("schema"), Json.str ("s")),
         (("table"), Json.str ("t")), (("columnnames"), Json.arr [Json.str ("a")]),
         (("columntypes"), Json.arr [Json.str ("text")]),
         (("columnvalues"), Json.arr [Json.num 1])]])])).isSome = true := by
  obtain ⟨out, hd, hlen, hf⟩ := C3_verbatim_decode
    [(("change"), Json.arr [Json.obj
      [(("kind"), Json.str ("insert")), (("schema"), Json.str ("s")),
       (("table"), Json.str ("t")), (("columnnames"), Json.arr [Json.str ("a")]),
       (("columntypes"), Json.arr [Json.str ("text")]),
       (("columnvalues"), Json.arr [Json.num 1])]])]
    [Json.obj
      [(("kind"), Json.str ("insert")), (("schema"), Json.str ("s")),
       (("table"), Json.str ("t")), (("columnnames"), Json.arr [Json.str ("a")]),
       (("columntypes"), Json.arr [Json.str ("text")]),
       (("columnvalues"), Json.arr [Json.num 1])]]
    rfl (by
  intro c hc
  rcases List.mem_singleton.mp hc with rfl
  refine ⟨[(("kind"), Json.str ("insert")), (("schema"), Json.str ("s")),
       (("table"), Json.str ("t")), (("columnnames"), Json.arr [Json.str ("a")]),
       (("columntypes"), Json.arr [Json.str ("text")]),
       (("columnvalues"), Json.arr [Json.num 1])],
    Json.str ("insert"), Json.str ("s"), Json.str ("t"),
    [Json.str ("a")], [Json.str ("text")], [Json.num 1],
    rfl, rfl, rfl, rfl, rfl, rfl, rfl, rfl, rfl, ?_⟩
  intro v hv
  cases hv)
  rw [hd]
  rfl

/-- The decode step the worker applies to one raw payload:
`json.loads` followed by `Wal2JsonOutput.from_dict`.  A falsy payload is
not valid JSON either, so only a well-formed payload can decode. -/
def decodePayload (p : MsgPayload) : Option Wal2JsonOutput :=
  match p with
  | MsgPayload.wellFormed j => from_dict j
  | _ => none

/-- The amended failure condition for decode: the payload is not valid
JSON, or the top-level value is not a dict with a `change` entry, or the
`change` value is not iterable, or some iterated element is a bad change
object (`changeObjBad`: not a dict, missing `kind`/`schema`/`table`, or
carrying a non-dict `oldkeys`). -/
def decodeFails (p : MsgPayload) : Prop :=
  match p with
  | MsgPayload.wellFormed j =>
    match j with
    | Json.obj dfs =>
      match jsonGet? dfs ("change") with
      | none => True
      | some cv =>
        match pyIter cv with
        | none => True
        | some elems => ∃ c ∈ elems, changeObjBad c
    | _ => True
  | _ => True

/-- C6 counterexample: the payload `{"change": 5}` is valid JSON, its
top-level key `change` is present, and it contains no change object
lacking `kind`, `schema` or `table` (it contains no change objects at
all), yet decode fails — contradicting the claimed exact
characterization of decode errors. -/
theorem C6_counterexample :
    decodePayload (MsgPayload.wellFormed (Json.obj [(("change"), Json.num 5)])) = none ∧
    jsonGet? [(("change"), Json.num 5)] ("change") = some (Json.num 5) ∧
    pyIter (Json.num 5) = none := by
  exact ⟨rfl, rfl, rfl⟩

/-- C6 amended: decode of a raw payload fails exactly when the payload
is not valid JSON, or the top-level value is not a dict carrying the key
`change`, or the `change` value is not iterable, or iterating it yields
an element that is not a dict, lacks `kind`, `schema` or `table`, or
carries a non-dict `oldkeys` entry; on every other input decode
succeeds. -/
theorem C6_decode_error_characterization (p : MsgPayload) :
    decodePayload p = none ↔ decodeFails p := by
  cases p with
  | empty => simp [decodePayload, decodeFails]
  | malformed => simp [decodePayload, decodeFails]
  | wellFormed j =>
    cases j with
    | obj dfs =>
      simp only [decodePayload, decodeFails, from_dict, pySubscript]
      cases hcv : jsonGet? dfs ("change") with
      | none => simp [hcv]
      | some cv =>
        simp only [hcv]
        cases hel : pyIter cv with
        | none => simp [hel]
        | some elems =>
          simp only [hel]
          cases hch : processChanges elems with
          | none =>
            simp only [hch, true_iff]
            rcases (processChanges_eq_none_iff elems).mp hch with ⟨c, hc, hcn⟩
            exact ⟨c, hc, (processChange_eq_none_iff c).mp hcn⟩
          | some changes =>
            simp only [hch, reduceCtorEq, false_iff, not_exists]
            intro c hmem
            rcases hmem with ⟨hc, hbad⟩
            have hcn : processChange c = none := (processChange_eq_none_iff c).mpr hbad
            have h3 := (processChanges_eq_none_iff elems).mpr ⟨c, hc, hcn⟩
            rw [hch] at h3
            cases h3
    | null => simp [decodePayload, decodeFails, from_dict, pySubscript]
    | bool b => simp [decodePayload, decodeFails, from_dict, pySubscript]
    | num n => simp [decodePayload, decodeFails, from_dict, pySubscript]
    | str s => simp [decodePayload, decodeFails, from_dict, pySubscript]
    | arr xs => simp [decodePayload, decodeFails, from_dict, pySubscript]

theorem feedback_eq_specAck (cb : Nat → Wal2JsonOutput → Bool) (msgs : List (Option Msg)) :
    feedbackPositions (workerRun cb msgs) = specAckPositions cb msgs := by
  induction msgs with
  | nil => rfl
  | cons m rest ih =>
    simp only [workerRun, feedbackPositions, List.filterMap_append, specAckPositions,
      List.filterMap_cons]
    cases m with
    | none =>
      simpa [workerStep, feedbackPositions, specAckPositions] using ih
    | some msg =>
      cases hp : msg.payload with
      | empty =>
        simpa [workerStep, hp, feedbackPositions, specAckPositions] using ih
      | malformed =>
        simpa [workerStep, hp, feedbackPositions, specAckPositions] using ih
      | wellFormed j =>
        cases hd : from_dict j with
        | none =>
          simpa [workerStep, hp, hd, feedbackPositions, specAckPositions] using ih
        | some out =>
          cases hcb : cb msg.data_start out with
          | false =>
            simpa [workerStep, hp, hd, hcb, feedbackPositions, specAckPositions] using ih
          | true =>
            simpa [workerStep, hp, hd, hcb, feedbackPositions, specAckPositions] using ih

/-- C1: in the worker loop, the positions acknowledged by `send_feedback`
are exactly — value and order — the positions of the messages with a
non-empty payload whose payload decoded successfully and whose callback
invocation returned without raising; in particular no feedback is sent
for a message whose decode failed or whose callback raised, and for
three messages at positions `p1 < p2 < p3` whose callbacks all return
normally, feedback is sent in the order `p1, p2, p3`. -/
theorem C1_feedback_iff_dispatch (cb : Nat → Wal2JsonOutput → Bool)
    (msgs : List (Option Msg)) :
    feedbackPositions (workerRun cb msgs) = specAckPositions cb msgs ∧
    (∀ (m1 m2 m3 : Msg) (j1 j2 j3 : Json) (o1 o2 o3 : Wal2JsonOutput),
      msgs = [some m1, some m2, some m3] →
      m1.payload = MsgPayload.wellFormed j1 → from_dict j1 = some o1 →
      cb m1.data_start o1 = true →
      m2.payload = MsgPayload.wellFormed j2 → from_dict j2 = some o2 →
      cb m2.data_start o2 = true →
      m3.payload = MsgPayload.wellFormed j3 → from_dict j3 = some o3 →
      cb m3.data_start o3 = true →
      m1.data_start < m2.data_start → m2.data_start < m3.data_start →
      feedbackPositions (workerRun cb msgs) =
        [m1.data_start, m2.data_start, m3.data_start]) := by
  refine ⟨feedback_eq_specAck cb msgs, ?_⟩
  intro m1 m2 m3 j1 j2 j3 o1 o2 o3 hm hp1 hd1 hc1 hp2 hd2 hc2 hp3 hd3 hc3 _ _
  subst hm
  rw [feedback_eq_specAck]
  simp [specAckPositions, hp1, hd1, hc1, hp2, hd2, hc2, hp3, hd3, hc3]

theorem C1_feedback_iff_dispatch_witness :
    feedbackPositions (workerRun (fun _ _ => true)
        [some ⟨1, MsgPayload.wellFormed (Json.obj [(("change"), Json.arr [])])⟩,
         some ⟨2, MsgPayload.wellFormed (Json.obj [(("change"), Json.arr [])])⟩,
         some ⟨3, MsgPayload.wellFormed (Json.obj [(("change"), Json.arr [])])⟩]) =
      [1, 2, 3] := by
  exact (C1_feedback_iff_dispatch (fun _ _ => true)
      [some ⟨1, MsgPayload.wellFormed (Json.obj [(("change"), Json.arr [])])⟩,
       some ⟨2, MsgPayload.wellFormed (Json.obj [(("change"), Json.arr [])])⟩,
       some ⟨3, MsgPayload.wellFormed (Json.obj [(("change"), Json.arr [])])⟩]).2
    ⟨1, MsgPayload.wellFormed (Json.obj [(("change"), Json.arr [])])⟩
    ⟨2, MsgPayload.wellFormed (Json.obj [(("change"), Json.arr [])])⟩
    ⟨3, MsgPayload.wellFormed (Json.obj [(("change"), Json.arr [])])⟩
    (Json.obj [(("change"), Json.arr [])]) (Json.obj [(("change"), Json.arr [])])
    (Json.obj [(("change"), Json.arr [])])
    ⟨[]⟩ ⟨[]⟩ ⟨[]⟩
    rfl rfl rfl rfl rfl rfl rfl rfl rfl rfl (by decide) (by decide)

theorem slash_not_hexDigit : hexDigitVal? ('/') = none := by decide

theorem splitOnChar_of_not_mem (sep : Char) (cs : List Char) (h : sep ∉ cs) :
    splitOnChar sep cs = [cs] := by
  induction cs with
  | nil => rfl
  | cons c rest ih =>
    have hne : ¬(c = sep) := fun e => h (e ▸ List.mem_cons_self c rest)
    have hrest : sep ∉ rest := fun hm => h (List.mem_cons_of_mem _ hm)
    simp [splitOnChar, hne, ih hrest]

theorem splitOnChar_append (sep : Char) (H L : List Char) (h : sep ∉ H) :
    splitOnChar sep (H ++ sep :: L) = H :: splitOnChar sep L := by
  induction H with
  | nil => simp [splitOnChar]
  | cons c rest ih =>
    have hne : ¬(c = sep) := fun e => h (e ▸ List.mem_cons_self c rest)
    have hrest : sep ∉ rest := fun hm => h (List.mem_cons_of_mem _ hm)
    simp only [List.cons_append, splitOnChar, hne, if_false, List.append_eq, ih hrest]

theorem parseHexCore_eq_ofDigits (cs : List Char) (acc : Nat)
    (h : ∀ c ∈ cs, (hexDigitVal? c).isSome) :
    parseHexCore cs acc =
      some (acc * 16 ^ cs.length + Nat.ofDigits 16 ((cs.map hexVal).reverse)) := by
  induction cs generalizing acc with
  | nil => simp [parseHexCore]
  | cons c rest ih =>
    have hc := h c (List.mem_cons_self _ _)
    rcases Option.isSome_iff_exists.mp hc with ⟨d, hd⟩
    have hrest : ∀ x ∈ rest, (hexDigitVal? x).isSome :=
      fun x hx => h x (List.mem_cons_of_mem _ hx)
    have hval : hexVal c = d := by simp [hexVal, hd]
    simp only [parseHexCore, hd]
    rw [ih (16 * acc + d) hrest]
    congr 1
    simp only [List.map_cons, List.reverse_cons, Nat.ofDigits_append, List.length_cons,
      List.length_reverse, List.length_map, hval, Nat.ofDigits_singleton]
    ring

theorem int16?_eq_ofDigits (cs : List Char) (hne : cs ≠ [])
    (hall : ∀ c ∈ cs, (hexDigitVal? c).isSome) :
    int16? cs = some (Nat.ofDigits 16 ((cs.map hexVal).reverse)) := by
  cases cs with
  | nil => cases hne rfl
  | cons c rest =>
    show parseHexCore (c :: rest) 0 = _
    rw [parseHexCore_eq_ofDigits _ _ hall]
    simp

/-- C7: for every log-position string `H/L` whose two groups are
non-empty 32-bit hexadecimal digit strings, the parse in `create_slot`
yields `(high <<< 32) ||| low`, `high` and `low` being the numeric
values the hex groups denote. -/
theorem C7_parseLsn_shift_or (H L : List Char)
    (hH : ∀ c ∈ H, (hexDigitVal? c).isSome) (hL : ∀ c ∈ L, (hexDigitVal? c).isSome)
    (hHne : H ≠ []) (hLne : L ≠ []) (_hH8 : H.length ≤ 8) (_hL8 : L.length ≤ 8) :
    parseLsn (String.mk (H ++ ('/') :: L)) =
      some ((Nat.ofDigits 16 ((H.map hexVal).reverse) <<< 32) |||
        Nat.ofDigits 16 ((L.map hexVal).reverse)) := by
  have hHs : ('/') ∉ H := by
    intro hm
    have h2 := hH _ hm
    rw [slash_not_hexDigit] at h2
    simp at h2
  have hLs : ('/') ∉ L := by
    intro hm
    have h2 := hL _ hm
    rw [slash_not_hexDigit] at h2
    simp at h2
  show (match splitOnChar ('/') (String.mk (H ++ ('/') :: L)).data with
    | a :: b :: _ =>
      match int16? a, int16? b with
      | some hi, some lo => some ((hi <<< 32) ||| lo)
      | _, _ => none
    | _ => none) = _
  rw [show (String.mk (H ++ ('/') :: L)).data = H ++ ('/') :: L from rfl]
  rw [splitOnChar_append _ _ _ hHs, splitOnChar_of_not_mem _ _ hLs]
  simp only [int16?_eq_ofDigits H hHne hH, int16?_eq_ofDigits L hLne hL]

theorem C7_parseLsn_shift_or_witness :
    parseLsn ("0/199EB170") = some 0x199EB170 := by
  have h := C7_parseLsn_shift_or [('0')]
    [('1'), ('9'), ('9'), ('E'), ('B'), ('1'), ('7'), ('0')]
    (by decide) (by decide) (by decide) (by decide) (by decide) (by decide)
  rw [show String.mk ([('0')] ++ ('/') ::
    [('1'), ('9'), ('9'), ('E'), ('B'), ('1'), ('7'), ('0')]) = ("0/199EB170") from rfl] at h
  rw [h]
  decide

/-- C8: slot creation is idempotent — whenever the registry query for
`slot_name` returns at least one row, `create_slot` issues no creation
statement, performs no mutation, records no starting position and
raises nothing; consequently two consecutive calls against a fresh
registry (with an error-free creation) issue exactly one creation
statement and the second call succeeds as a pure no-op. -/
theorem C8_idempotent_creation (db : Db) (slotName plugin lsnText : String) (lsn : Nat)
    (o2 : CreateOutcome)
    (hfree : slotName ∉ db.slots) (hparse : parseLsn lsnText = some lsn) :
    (∀ (db2 : Db) (o : CreateOutcome), slotName ∈ db2.slots →
      create_slot db2 slotName plugin o =
        { db := db2, createRequests := [], startLsn := none, error := none,
          connClosed := true }) ∧
    ((create_slot db slotName plugin (CreateOutcome.success lsnText)).createRequests.length
        = 1 ∧
      (create_slot db slotName plugin (CreateOutcome.success lsnText)).error = none ∧
      (create_slot (create_slot db slotName plugin (CreateOutcome.success lsnText)).db
          slotName plugin o2).createRequests = [] ∧
      (create_slot (create_slot db slotName plugin (CreateOutcome.success lsnText)).db
          slotName plugin o2).error = none ∧
      (create_slot (create_slot db slotName plugin (CreateOutcome.success lsnText)).db
          slotName plugin o2).startLsn = none ∧
      (create_slot (create_slot db slotName plugin (CreateOutcome.success lsnText)).db
          slotName plugin o2).db =
        (create_slot db slotName plugin (CreateOutcome.success lsnText)).db) := by
  have hexists : ∀ (db2 : Db), slotName ∈ db2.slots →
      (db2.slots.filter (fun n => n = slotName)) ≠ [] := by
    intro db2 hmem hnil
    have h2 : slotName ∈ db2.slots.filter (fun n => n = slotName) :=
      List.mem_filter.mpr ⟨hmem, by simp⟩
    rw [hnil] at h2
    cases h2
  have hfilter : db.slots.filter (fun n => n = slotName) = [] := by
    rw [List.filter_eq_nil_iff]
    intro a ha
    simp only [decide_eq_true_eq]
    intro he
    exact hfree (he ▸ ha)
  have hfirst : create_slot db slotName plugin (CreateOutcome.success lsnText) =
      { db := { slots := slotName :: db.slots },
        createRequests := [(slotName, plugin)],
        startLsn := some lsn, error := none, connClosed := true } := by
    simp [create_slot, hfilter, hparse]
  refine ⟨?_, ?_⟩
  · intro db2 o hmem
    simp [create_slot, hexists db2 hmem]
  · rw [hfirst]
    refine ⟨rfl, rfl, ?_, ?_, ?_, ?_⟩ <;>
      simp [create_slot,
        hexists { slots := slotName :: db.slots } (List.mem_cons_self _ _)]

theorem C8_idempotent_creation_witness :
    (create_slot { slots := [] } ("s1") ("wal2json")
        (CreateOutcome.success ("0/1"))).createRequests.length = 1 ∧
    (create_slot (create_slot { slots := [] } ("s1") ("wal2json")
        (CreateOutcome.success ("0/1"))).db ("s1") ("wal2json")
        (CreateOutcome.success ("0/1"))).createRequests = [] := by
  have h := C8_idempotent_creation { slots := [] } ("s1") ("wal2json") ("0/1") 1
    (CreateOutcome.success ("0/1")) (by simp) (by decide)
  exact ⟨h.2.1, h.2.2.2.1⟩

/-- C9: during slot creation, a database error whose message contains
`already exists` is swallowed and `create_slot` returns normally, while
any other database error propagates to the caller (the spec's
`SlotCreationError`); and the administrative connection is closed on
every exit path, whatever the registry state and the server outcome. -/
theorem C9_error_policy (db : Db) (slotName plugin msg : String)
    (hfree : slotName ∉ db.slots) :
    ((("already exists").data <:+: msg.data) →
      (create_slot db slotName plugin (CreateOutcome.dbError msg)).error = none) ∧
    (¬(("already exists").data <:+: msg.data) →
      (create_slot db slotName plugin (CreateOutcome.dbError msg)).error =
        some (SlotErr.dbError msg)) ∧
    (∀ (db2 : Db) (o : CreateOutcome) (sn pl : String),
      (create_slot db2 sn pl o).connClosed = true) := by
  have hfilter : db.slots.filter (fun n => n = slotName) = [] := by
    rw [List.filter_eq_nil_iff]
    intro a ha
    simp only [decide_eq_true_eq]
    intro he
    exact hfree (he ▸ ha)
  refine ⟨?_, ?_, ?_⟩
  · intro hin
    simp [create_slot, hfilter, hin]
  · intro hout
    simp [create_slot, hfilter, hout]
  · intro db2 o sn pl
    rcases o with lsnText | m
    · by_cases hc : (db2.slots.filter (fun n => n = sn)) ≠ []
      · simp [create_slot, hc]
      · cases hp : parseLsn lsnText <;> simp [create_slot, hc, hp]
    · by_cases hc : (db2.slots.filter (fun n => n = sn)) ≠ []
      · simp [create_slot, hc]
      · by_cases hm : ("already exists").data <:+: m.data <;> simp [create_slot, hc, hm]

theorem C9_error_policy_witness :
    (create_slot { slots := [] } ("s1") ("wal2json")
      (CreateOutcome.dbError ("replication slot already exists"))).error = none ∧
    (create_slot { slots := [] } ("s1") ("wal2json")
      (CreateOutcome.dbError ("connection refused"))).error =
        some (SlotErr.dbError ("connection refused")) := by
  have h1 := C9_error_policy { slots := [] } ("s1") ("wal2json")
    ("replication slot already exists") (by simp)
  have h2 := C9_error_policy { slots := [] } ("s1") ("wal2json")
    ("connection refused") (by simp)
  exact ⟨h1.1 (by decide), h2.2.1 (by decide)⟩

end PgLogRepl
